import Mathlib

/-!
PrinterViewer (esp32/src/main.cpp): camera fetch, render callback and telemetry panel.

A shallow embedding of the three routines of `main.cpp` that carry behaviour:

* `Main_DisplayOutput`  (lines 64-74): the render callback of the JPEG decoder;
* `Main_GetCamPicture`  (lines 96-140): HTTP fetch into `Main_httpStreamBuffer`, size check, draw;
* `Main_MqttCallback`   (lines 209-292): telemetry dispatch and side-panel redraw.

Calls into the Arduino libraries (HTTPClient, WiFiClient, TJpg_Decoder, TFT_eSPI, Serial) are
recorded as events, in program order.  What the libraries return is an input of the model.
-/

namespace PrinterViewer

/-! ## Display and decoder events -/

/-- Colours of TFT_eSPI used by `main.cpp`, kept symbolic. -/
inductive Color where
  | TFT_BLACK
  | TFT_CYAN
  | TFT_GREENYELLOW
  deriving DecidableEq, Repr

/-- One decoded block handed to the render callback: `(x, y, tempPictureWidth, h, bitmap)`. -/
structure Tile where
  x : Int
  y : Int
  w : Nat
  h : Nat
  bitmap : List Nat
  deriving DecidableEq, Repr

/-- Library calls made by `Main_GetCamPicture` and by the render callback, in program order.
`readBytes offset data` is `readBytes(tempHttpStreamBuffer_p, n)` with the write cursor
`offset` bytes past the start of `Main_httpStreamBuffer` and `data` the `n` bytes stored. -/
inductive Effect where
  | httpBegin
  | httpGET
  | logGetFailed (code : Int)
  | logNoContent (len : Nat)
  | readBytes (offset : Nat) (data : List Nat)
  | logReadOk
  | getJpgSize (len : Nat)
  | logTooLarge
  | drawJpg (x y : Int) (len : Nat)
  | pushImage (x y : Int) (w h : Nat) (bitmap : List Nat)
  | httpEnd
  deriving DecidableEq, Repr

/-! ## `Main_DisplayOutput` -/

/-- `Main_DisplayOutput(x, y, tempPictureWidth, h, bitmap)`; `height` is what
`Main_DisplayHandler.height()` returns.  The result is the returned flag and the display calls. -/
def Main_DisplayOutput (height : Int) (t : Tile) : Bool × List Effect :=
  if t.y ≥ height then
    (false, [])
  else
    (true, [Effect.pushImage t.x t.y t.w t.h t.bitmap])

/-- `TJpgDec.drawJpg` seen from the program: the decoder hands its blocks, in order, to the
callback registered with `setCallback(Main_DisplayOutput)` and stops as soon as the callback
returns false.  `tiles` are the blocks the decoder would produce for the buffer. -/
def decodeBlocks (height : Int) : List Tile → List Effect
  | [] => []
  | t :: rest =>
    let r := Main_DisplayOutput height t
    if r.1 then r.2 ++ decodeBlocks height rest else r.2

/-! ## `Main_GetCamPicture` -/

/-- `sizeof(Main_httpStreamBuffer)`: `uint8_t Main_httpStreamBuffer[20000]`. -/
def bufferSize : Nat := 20000

/-- Modelled from the spec: the HTTPClient library constant `HTTP_CODE_OK` (status "OK"),
declared outside this repository; its value is 200. -/
def HTTP_CODE_OK : Int := 200

/-- Conversion of an `int` to `uint32_t`. -/
def toUInt32 (i : Int) : Nat := (i % 4294967296).toNat

/-- Conversion of a `uint32_t` to `int` (two's complement). -/
def toInt32 (n : Nat) : Int := if n < 2147483648 then (n : Int) else (n : Int) - 4294967296

/-- One evaluation of the loop condition and body: what `TempHttpClient.connected()` returns, and
the bytes waiting in the stream (`available()` returns their number, `readBytes` delivers them
in order and returns the number asked for). -/
structure Poll where
  connected : Bool
  pending : List Nat
  deriving DecidableEq, Repr

/-- The `while` loop of lines 117-126.  `len` is `tempHttpStreamLength` (a `uint32_t`),
`remaining` is `tempRemainingHttpStreamLength`, `cursor` is
`tempHttpStreamBuffer_p - Main_httpStreamBuffer`.  The result is `none` when the polls run out
while the loop is still going (the loop has no timeout). -/
def readLoop (len : Nat) : List Poll → Int → Nat → Option (List Effect)
  | [], _, _ => none
  | p :: rest, remaining, cursor =>
    if p.connected && (decide (remaining > 0) || decide (len = 4294967295)) then
      let tempAvailableTreamBytes := p.pending.length
      if tempAvailableTreamBytes ≠ 0 then
        let n := if tempAvailableTreamBytes > bufferSize then bufferSize
                 else tempAvailableTreamBytes
        let bytesRead : Nat := n
        let remaining2 := if remaining > 0 then remaining - (bytesRead : Int) else remaining
        (readLoop len rest remaining2 (cursor + bytesRead)).map
          (fun evs => Effect.readBytes cursor (p.pending.take n) :: evs)
      else
        readLoop len rest remaining cursor
    else
      some []

/-- What the libraries answer during one call of `Main_GetCamPicture`. -/
structure CamEnv where
  /-- Value returned by `TempHttpClient.GET()` -/
  httpCode : Int
  /-- Value returned by `TempHttpClient.getSize()` (an `int`) -/
  size : Int
  /-- Results of `connected()` / `available()` / `readBytes`, one per loop iteration -/
  polls : List Poll
  /-- Value of `tempPictureWidth` after `TJpgDec.getJpgSize` -/
  jpgWidth : Nat
  /-- Blocks the decoder produces in `TJpgDec.drawJpg` -/
  tiles : List Tile
  /-- Value returned by `Main_DisplayHandler.height()` -/
  height : Int

/-- `Main_GetCamPicture()`: the library calls of one cycle, or `none` when the read loop does
not end within the polls given. -/
def Main_GetCamPicture (env : CamEnv) : Option (List Effect) :=
  let tempHttpCodeReturn := env.httpCode
  if tempHttpCodeReturn ≠ HTTP_CODE_OK then
    some [Effect.httpBegin, Effect.httpGET, Effect.logGetFailed tempHttpCodeReturn]
  else
    let tempHttpStreamLength : Nat := toUInt32 env.size
    if tempHttpStreamLength ≤ 0 then
      some [Effect.httpBegin, Effect.httpGET, Effect.logNoContent tempHttpStreamLength]
    else
      let tempRemainingHttpStreamLength : Int := toInt32 tempHttpStreamLength
      match readLoop tempHttpStreamLength env.polls tempRemainingHttpStreamLength 0 with
      | none => none
      | some reads =>
        let tempPictureWidth := env.jpgWidth
        if tempPictureWidth > 400 then
          some ([Effect.httpBegin, Effect.httpGET] ++ reads ++
            [Effect.logReadOk, Effect.getJpgSize tempHttpStreamLength, Effect.logTooLarge])
        else
          some ([Effect.httpBegin, Effect.httpGET] ++ reads ++
            [Effect.logReadOk, Effect.getJpgSize tempHttpStreamLength,
             Effect.drawJpg 0 0 tempHttpStreamLength] ++
            decodeBlocks env.height env.tiles ++ [Effect.httpEnd])

/-! ### Observations on a trace -/

/-- Is the event a `TJpgDec.getJpgSize` call? -/
def isGetJpgSize : Effect → Bool
  | Effect.getJpgSize _ => true
  | _ => false

/-- Is the event a `TJpgDec.drawJpg` call? -/
def isDrawJpg : Effect → Bool
  | Effect.drawJpg _ _ _ => true
  | _ => false

/-- Is the event a `pushImage` call (a block pushed by the render callback)? -/
def isPushImage : Effect → Bool
  | Effect.pushImage _ _ _ _ _ => true
  | _ => false

/-- Is the event a `readBytes` call (a store into the streaming buffer)? -/
def isReadBytes : Effect → Bool
  | Effect.readBytes _ _ => true
  | _ => false

/-- Number of `TJpgDec.getJpgSize` calls in a trace. -/
def countGetJpgSize (tr : List Effect) : Nat := tr.countP isGetJpgSize

/-- Number of `TJpgDec.drawJpg` calls in a trace. -/
def countDrawJpg (tr : List Effect) : Nat := tr.countP isDrawJpg

/-- Number of `pushImage` calls in a trace. -/
def countPushImage (tr : List Effect) : Nat := tr.countP isPushImage

/-- The store a `readBytes` call makes: buffer offset and bytes. -/
def asWrite : Effect → Option (Nat × List Nat)
  | Effect.readBytes offset data => some (offset, data)
  | _ => none

/-- The stores into the streaming buffer made in a trace, in order. -/
def writes (tr : List Effect) : List (Nat × List Nat) := tr.filterMap asWrite

/-- Total number of bytes stored by the `readBytes` calls of a trace. -/
def bytesWritten (tr : List Effect) : Nat :=
  ((writes tr).map (fun wr => wr.2.length)).sum

/-- One past the highest buffer offset a `readBytes` call of the trace stores to (0 if none). -/
def writeEnd (tr : List Effect) : Nat :=
  ((writes tr).map (fun wr => wr.1 + wr.2.length)).foldr max 0

/-- Memory starting at `Main_httpStreamBuffer` after storing `data` at `offset`. -/
def storeAt (mem : List Nat) (offset : Nat) (data : List Nat) : List Nat :=
  mem.take offset ++ data ++ mem.drop (offset + data.length)

/-- Contents of the buffer after the `readBytes` calls of a trace, starting from `mem`. -/
def bufferAfter (mem : List Nat) (tr : List Effect) : List Nat :=
  (writes tr).foldl (fun m wr => storeAt m wr.1 wr.2) mem

/-! ### The read loop on a connection that stays open -/

/-- Bytes the read loop takes from a run of polls: each non-empty poll gives
`min(available, sizeof(Main_httpStreamBuffer))` bytes. -/
def delivered : List Poll → Nat
  | [] => 0
  | q :: rest => min q.pending.length bufferSize + delivered rest

/-- The bytes of a run of polls in arrival order. -/
def arrived : List Poll → List Nat
  | [] => []
  | q :: rest => q.pending ++ arrived rest

/-- The stores a run of polls leads to when every poll is served: each non-empty poll is
stored where the previous one ended. -/
def storesFrom (cursor : Nat) : List Poll → List Effect
  | [] => []
  | q :: rest =>
    if q.pending.length = 0 then storesFrom cursor rest
    else
      Effect.readBytes cursor (q.pending.take (min q.pending.length bufferSize)) ::
        storesFrom (cursor + min q.pending.length bufferSize) rest

/-! ### Concrete runs -/

/-- A fetch whose connection closes after 5 of the 10 declared bytes. -/
def shortFetch : CamEnv :=
  { httpCode := 200, size := 10
    polls := [⟨true, [255, 216, 255, 224, 0]⟩, ⟨false, []⟩]
    jpgWidth := 0, tiles := [], height := 320 }

/-- A response without a Content-Length header: `getSize()` returns -1. -/
def unknownLengthFetch : CamEnv :=
  { httpCode := 200, size := -1
    polls := [⟨true, [255, 216]⟩, ⟨false, []⟩]
    jpgWidth := 0, tiles := [], height := 320 }

/-- A response with `Content-Length: 0`. -/
def emptyFetch : CamEnv :=
  { httpCode := 200, size := 0
    polls := [⟨true, [255, 216]⟩, ⟨false, []⟩]
    jpgWidth := 0, tiles := [], height := 320 }

/-- A piece of 4000 bytes, as `available()` reports it in `largeFetch`. -/
def piece : List Nat := List.replicate 4000 0

/-- A 24000-byte picture arriving in six pieces of 4000 bytes. -/
def largeFetch : CamEnv :=
  { httpCode := 200, size := 24000
    polls :=
      [⟨true, piece⟩, ⟨true, piece⟩,
       ⟨true, piece⟩, ⟨true, piece⟩,
       ⟨true, piece⟩, ⟨true, piece⟩, ⟨false, []⟩]
    jpgWidth := 320, tiles := [], height := 320 }

/-- A 6-byte picture arriving as 2 bytes, an empty poll, then 4 bytes; 320 wide, two blocks. -/
def smallFetch (w : Nat) : CamEnv :=
  { httpCode := 200, size := 6
    polls := [⟨true, [255, 216]⟩, ⟨true, []⟩, ⟨true, [1, 2, 255, 217]⟩, ⟨false, []⟩]
    jpgWidth := w
    tiles := [⟨0, 0, 16, 16, [7]⟩, ⟨16, 0, 16, 16, [8]⟩], height := 320 }

/-! ## `Main_MqttCallback` -/

/-- The four topic names declared in `user_config.h` (`extern const char*`). -/
structure Config where
  CONFIG_mqtt_topic_nozzle : String
  CONFIG_mqtt_topic_bed : String
  CONFIG_mqtt_topic_progress : String
  CONFIG_mqtt_topic_state : String

/-- The four `static` locals of `Main_MqttCallback`; `D` stands for `double`. -/
structure Telemetry (D : Type) where
  progress : D
  toolTemp : D
  bedTemp : D
  state : String

/-- The row argument of a `setCursor` call: a literal, or `Main_DisplayHandler.getCursorY()`. -/
inductive CursorRow where
  | lit (y : Int)
  | getCursorY
  deriving DecidableEq, Repr

/-- Calls on `Main_DisplayHandler` made by `Main_MqttCallback`. -/
inductive TftCall (D : Type) where
  | fillRect (x y w h : Int) (color : Color)
  | setCursor (x : Int) (y : CursorRow) (font : Option Nat)
  | setTextSize (s : Nat)
  | setTextColor (c : Color)
  | printDouble (v : D) (digits : Nat)
  | println (s : String)

/-- Calls on `Serial` made by `Main_MqttCallback`. -/
inductive SerialCall where
  | print (s : String)
  | println (s : String)
  deriving DecidableEq, Repr

/-- The text built by the loop of lines 219-221: the `length` payload bytes appended one by
one, each as a `char`. -/
def payloadText (message : List Char) : String :=
  message.foldl (fun s c => s.push c) ""

/-- Outcome of one call of `Main_MqttCallback`. -/
structure MqttResult (D : Type) where
  state : Telemetry D
  serial : List SerialCall
  tft : List (TftCall D)

/-- `Main_MqttCallback(topic, message, length)`.  `st` holds the static locals before the
call, `message` is the `length` payload bytes, `toDouble` is `String::toDouble`. -/
def Main_MqttCallback {D : Type} (cfg : Config) (toDouble : String → D)
    (st : Telemetry D) (topic : String) (message : List Char) : MqttResult D :=
  let tempReceivedMqttMessage := payloadText message
  let progress :=
    if topic = cfg.CONFIG_mqtt_topic_progress then toDouble tempReceivedMqttMessage
    else st.progress
  let bedTemp :=
    if topic = cfg.CONFIG_mqtt_topic_bed then toDouble tempReceivedMqttMessage
    else st.bedTemp
  let toolTemp :=
    if topic = cfg.CONFIG_mqtt_topic_nozzle then toDouble tempReceivedMqttMessage
    else st.toolTemp
  let state :=
    if topic = cfg.CONFIG_mqtt_topic_state then tempReceivedMqttMessage
    else st.state
  { state := { progress := progress, toolTemp := toolTemp, bedTemp := bedTemp, state := state }
    serial :=
      [ SerialCall.print "Message arrived on topic: ", SerialCall.print topic,
        SerialCall.print " : ", SerialCall.println tempReceivedMqttMessage ]
    tft :=
      [ TftCall.fillRect 401 0 80 320 Color.TFT_BLACK,
        -- Label: Nozzle
        TftCall.setCursor 401 (CursorRow.lit 0) (some 2),
        TftCall.setTextSize 1,
        TftCall.setTextColor Color.TFT_CYAN,
        TftCall.println "Nozzle",
        -- Value: Nozzle
        TftCall.setTextSize 2,
        TftCall.setTextColor Color.TFT_GREENYELLOW,
        TftCall.setCursor 401 CursorRow.getCursorY none,
        TftCall.printDouble toolTemp 1,
        TftCall.println "C",
        -- Label: Bed
        TftCall.setCursor 401 CursorRow.getCursorY none,
        TftCall.setTextSize 1,
        TftCall.setTextColor Color.TFT_CYAN,
        TftCall.println "Bed",
        -- Value: Bed
        TftCall.setTextSize 2,
        TftCall.setTextColor Color.TFT_GREENYELLOW,
        TftCall.setCursor 401 CursorRow.getCursorY none,
        TftCall.printDouble bedTemp 1,
        TftCall.println "C",
        -- Label: Chamber
        TftCall.setCursor 401 CursorRow.getCursorY none,
        TftCall.setTextSize 1,
        TftCall.setTextColor Color.TFT_CYAN,
        TftCall.println "Chamber",
        -- Value: Chamber
        TftCall.setTextSize 2,
        TftCall.setTextColor Color.TFT_GREENYELLOW,
        TftCall.setCursor 401 CursorRow.getCursorY none,
        TftCall.println "00.0C",
        -- Label: Progress
        TftCall.setCursor 401 CursorRow.getCursorY none,
        TftCall.setTextSize 1,
        TftCall.setTextColor Color.TFT_CYAN,
        TftCall.println "Progress",
        -- Value: Progress
        TftCall.setTextSize 2,
        TftCall.setTextColor Color.TFT_GREENYELLOW,
        TftCall.setCursor 401 CursorRow.getCursorY none,
        TftCall.printDouble progress 0,
        TftCall.println "%",
        -- Label: state
        TftCall.setCursor 401 CursorRow.getCursorY none,
        TftCall.setTextSize 1,
        TftCall.setTextColor Color.TFT_CYAN,
        TftCall.println "State",
        -- Value: state
        TftCall.setTextSize 2,
        TftCall.setTextColor Color.TFT_GREENYELLOW,
        TftCall.setCursor 401 CursorRow.getCursorY none,
        TftCall.println state ] }

/-! ### The side panel as the specification describes it -/

/-- One block of the side panel: a caption at text size 1 in cyan, then the value line at
text size 2 in green-yellow, both starting at column 401. `first` is true for the top block,
whose caption is placed with `setCursor(401, 0, 2)`. -/
def panelBlock {D : Type} (first : Bool) (caption : String) (value : List (TftCall D)) :
    List (TftCall D) :=
  [ (if first then TftCall.setCursor 401 (CursorRow.lit 0) (some 2)
     else TftCall.setCursor 401 CursorRow.getCursorY none),
    TftCall.setTextSize 1,
    TftCall.setTextColor Color.TFT_CYAN,
    TftCall.println caption,
    TftCall.setTextSize 2,
    TftCall.setTextColor Color.TFT_GREENYELLOW,
    TftCall.setCursor 401 CursorRow.getCursorY none ] ++ value

/-- The redraw the specification describes for a telemetry state: one clear of the telemetry
rectangle, then the blocks Nozzle, Bed, Chamber, Progress, State from top to bottom. -/
def panelRedraw {D : Type} (st : Telemetry D) : List (TftCall D) :=
  [TftCall.fillRect 401 0 80 320 Color.TFT_BLACK] ++
  panelBlock true "Nozzle" [TftCall.printDouble st.toolTemp 1, TftCall.println "C"] ++
  panelBlock false "Bed" [TftCall.printDouble st.bedTemp 1, TftCall.println "C"] ++
  panelBlock false "Chamber" [TftCall.println "00.0C"] ++
  panelBlock false "Progress" [TftCall.printDouble st.progress 0, TftCall.println "%"] ++
  panelBlock false "State" [TftCall.println st.state]

/-- Is the call a `fillRect`? -/
def isFillRect {D : Type} : TftCall D → Bool
  | TftCall.fillRect _ _ _ _ _ => true
  | _ => false

/-- Does a display call of the side-panel renderer stay in the telemetry region: a
`fillRect` whose rectangle lies in columns 401..480 and rows 0..319, a `setCursor` at column
401?  Calls that neither clear nor position are accepted. -/
def inPanel {D : Type} : TftCall D → Bool
  | TftCall.fillRect x y w h _ =>
    decide (401 ≤ x) && decide (x + w ≤ 481) && decide (0 ≤ y) && decide (y + h ≤ 320)
  | TftCall.setCursor x _ _ => decide (x = 401)
  | _ => true

/-- Columns and rows a rectangle `(x, y, w, h)` covers. -/
def rectCovers (x y w h : Int) (col row : Int) : Prop :=
  x ≤ col ∧ col < x + w ∧ y ≤ row ∧ row < y + h

instance (x y w h col row : Int) : Decidable (rectCovers x y w h col row) := by
  unfold rectCovers; infer_instance

/-- Stand-in for `String::toDouble` used in concrete evaluations: the decimal texts that
occur there, as rationals; any other text gives 0 (as `toDouble` does for non-numbers). -/
def sampleToDouble (s : String) : ℚ :=
  if s = "42.5" then 85 / 2 else if s = "60" then 60 else 0

/-- Sample topic names for concrete evaluations (the real ones live outside `src/`). -/
def sampleConfig : Config :=
  { CONFIG_mqtt_topic_nozzle := "printer/nozzle"
    CONFIG_mqtt_topic_bed := "printer/bed"
    CONFIG_mqtt_topic_progress := "printer/progress"
    CONFIG_mqtt_topic_state := "printer/state" }

/-- The calls of the cycle `smallFetch 320`: two stores, the size check, the draw with its two
blocks. -/
def smallFetchTrace : List Effect :=
  [Effect.httpBegin, Effect.httpGET, Effect.readBytes 0 [255, 216],
   Effect.readBytes 2 [1, 2, 255, 217], Effect.logReadOk, Effect.getJpgSize 6,
   Effect.drawJpg 0 0 6, Effect.pushImage 0 0 16 16 [7], Effect.pushImage 16 0 16 16 [8],
   Effect.httpEnd]

/-- Sample telemetry state before a call. -/
def sampleState : Telemetry ℚ :=
  { progress := 10, toolTemp := 215, bedTemp := 60, state := "Printing" }

end PrinterViewer

namespace PrinterViewer

/-! ## Theorems: render callback -/

/-- Blocks pushed while decoding all start above the bottom of the display. -/
theorem decodeBlocks_pushImage_above (height : Int) (tiles : List Tile) :
    ∀ x y w h b, Effect.pushImage x y w h b ∈ decodeBlocks height tiles → y < height := by
  induction tiles with
  | nil => intro x y w h b hm; simp [decodeBlocks] at hm
  | cons t rest ih =>
    intro x y w h b hm
    by_cases hy : t.y ≥ height
    · simp [decodeBlocks, Main_DisplayOutput, hy] at hm
    · simp only [decodeBlocks, Main_DisplayOutput, hy, if_false, if_true,
        List.singleton_append, List.mem_cons] at hm
      rcases hm with hm | hm
      · injection hm with _ h2
        omega
      · exact ih x y w h b hm

/-- C9. Render callback contract of Main_DisplayOutput: when the block's row y has reached the
display height H the callback returns false and pushes nothing; otherwise it pushes exactly
one image block with the same (x, y, w, h, bitmap) and returns true. It returns true exactly
when y < H, and no block with y >= H is pushed, by one call or by a whole decode. -/
theorem C9_displayOutput_contract (height : Int) (t : Tile) :
    (t.y ≥ height → Main_DisplayOutput height t = (false, [])) ∧
    (t.y < height →
      Main_DisplayOutput height t = (true, [Effect.pushImage t.x t.y t.w t.h t.bitmap])) ∧
    ((Main_DisplayOutput height t).1 = true ↔ t.y < height) ∧
    (∀ x y w h b, Effect.pushImage x y w h b ∈ (Main_DisplayOutput height t).2 → y < height) ∧
    (∀ tiles x y w h b, Effect.pushImage x y w h b ∈ decodeBlocks height tiles → y < height) := by
  refine ⟨?_, ?_, ?_, ?_, ?_⟩
  · intro hy
    simp [Main_DisplayOutput, hy]
  · intro hy
    have : ¬ t.y ≥ height := by omega
    simp [Main_DisplayOutput, this]
  · by_cases hy : t.y ≥ height
    · simp [Main_DisplayOutput, hy]
    · simp only [Main_DisplayOutput, hy, if_false, true_iff]
      omega
  · intro x y w h b hm
    by_cases hy : t.y ≥ height
    · simp [Main_DisplayOutput, hy] at hm
    · simp only [Main_DisplayOutput, hy, if_false, List.mem_singleton] at hm
      injection hm with _ h2
      omega
  · intro tiles
    exact decodeBlocks_pushImage_above height tiles

/-- C9 at sample blocks on a display 320 rows high: a block at row 16 is pushed, a block at
row 320 stops the decode. -/
theorem C9_displayOutput_contract_witness :
    Main_DisplayOutput 320 ⟨32, 16, 16, 16, [1, 2]⟩
        = (true, [Effect.pushImage 32 16 16 16 [1, 2]]) ∧
    Main_DisplayOutput 320 ⟨0, 320, 16, 16, [1, 2]⟩ = (false, []) :=
  ⟨(C9_displayOutput_contract 320 ⟨32, 16, 16, 16, [1, 2]⟩).2.1 (by decide),
   (C9_displayOutput_contract 320 ⟨0, 320, 16, 16, [1, 2]⟩).1 (by decide)⟩

/-! ## Theorems: telemetry callback -/

/-- The loop of lines 219-221 builds exactly the text whose characters are the payload
bytes, in order. -/
theorem payloadText_eq_mk (message : List Char) : payloadText message = String.mk message := by
  have key : ∀ (l : List Char) (s : String),
      l.foldl (fun s c => s.push c) s = String.mk (s.data ++ l) := by
    intro l
    induction l with
    | nil => intro s; simp
    | cons c rest ih =>
      intro s
      rw [List.foldl_cons, ih (s.push c)]
      simp [String.push, List.append_assoc]
  unfold payloadText
  rw [key message ""]
  simp

/-- C1. Dispatch of Main_MqttCallback for pairwise distinct configured topics: a message on
one of the four topics replaces exactly the matching field by the value parsed from the
payload (toDouble of the text made of the payload bytes for progress, bed and nozzle; that
text itself for state) and leaves the other three fields as they were. -/
theorem C1_dispatch_updates_one_field {D : Type} (cfg : Config) (toDouble : String → D)
    (st : Telemetry D) (topic : String) (message : List Char)
    (hpb : cfg.CONFIG_mqtt_topic_progress ≠ cfg.CONFIG_mqtt_topic_bed)
    (hpn : cfg.CONFIG_mqtt_topic_progress ≠ cfg.CONFIG_mqtt_topic_nozzle)
    (hps : cfg.CONFIG_mqtt_topic_progress ≠ cfg.CONFIG_mqtt_topic_state)
    (hbn : cfg.CONFIG_mqtt_topic_bed ≠ cfg.CONFIG_mqtt_topic_nozzle)
    (hbs : cfg.CONFIG_mqtt_topic_bed ≠ cfg.CONFIG_mqtt_topic_state)
    (hns : cfg.CONFIG_mqtt_topic_nozzle ≠ cfg.CONFIG_mqtt_topic_state) :
    (topic = cfg.CONFIG_mqtt_topic_progress →
      (Main_MqttCallback cfg toDouble st topic message).state =
        { progress := toDouble (String.mk message), toolTemp := st.toolTemp,
          bedTemp := st.bedTemp, state := st.state }) ∧
    (topic = cfg.CONFIG_mqtt_topic_bed →
      (Main_MqttCallback cfg toDouble st topic message).state =
        { progress := st.progress, toolTemp := st.toolTemp,
          bedTemp := toDouble (String.mk message), state := st.state }) ∧
    (topic = cfg.CONFIG_mqtt_topic_nozzle →
      (Main_MqttCallback cfg toDouble st topic message).state =
        { progress := st.progress, toolTemp := toDouble (String.mk message),
          bedTemp := st.bedTemp, state := st.state }) ∧
    (topic = cfg.CONFIG_mqtt_topic_state →
      (Main_MqttCallback cfg toDouble st topic message).state =
        { progress := st.progress, toolTemp := st.toolTemp,
          bedTemp := st.bedTemp, state := String.mk message }) := by
  refine ⟨?_, ?_, ?_, ?_⟩
  · intro h
    subst h
    simp [Main_MqttCallback, payloadText_eq_mk, hpb, hpn, hps]
  · intro h
    subst h
    simp [Main_MqttCallback, payloadText_eq_mk, hpb.symm, hbn, hbs]
  · intro h
    subst h
    simp [Main_MqttCallback, payloadText_eq_mk, hpn.symm, hbn.symm, hns]
  · intro h
    subst h
    simp [Main_MqttCallback, payloadText_eq_mk, hps.symm, hbs.symm, hns.symm]

/-- C1 at the sample configuration: the payload bytes '4' '2' '.' '5' on the progress topic
set progress to the value parsed from the text "42.5" (42.5 under the sample parser) and keep
the other three fields. -/
theorem C1_dispatch_updates_one_field_witness :
    String.mk ['4', '2', '.', '5'] = "42.5" ∧
    sampleToDouble "42.5" = 85 / 2 ∧
    (Main_MqttCallback sampleConfig sampleToDouble sampleState "printer/progress"
        ['4', '2', '.', '5']).state =
      { progress := sampleToDouble (String.mk ['4', '2', '.', '5']), toolTemp := 215,
        bedTemp := 60, state := "Printing" } :=
  ⟨by decide, by simp [sampleToDouble],
   (C1_dispatch_updates_one_field sampleConfig sampleToDouble sampleState "printer/progress"
      ['4', '2', '.', '5'] (by decide) (by decide) (by decide) (by decide) (by decide)
      (by decide)).1 (by decide)⟩

/-- C2. A message whose topic is none of the four configured topics leaves progress,
toolTemp, bedTemp and state unchanged, and the callback still performs the full side-panel
redraw (the clear of the telemetry rectangle followed by the five blocks) showing the prior
values. -/
theorem C2_unrecognized_topic_redraws_prior {D : Type} (cfg : Config) (toDouble : String → D)
    (st : Telemetry D) (topic : String) (message : List Char)
    (hp : topic ≠ cfg.CONFIG_mqtt_topic_progress)
    (hb : topic ≠ cfg.CONFIG_mqtt_topic_bed)
    (hn : topic ≠ cfg.CONFIG_mqtt_topic_nozzle)
    (hs : topic ≠ cfg.CONFIG_mqtt_topic_state) :
    (Main_MqttCallback cfg toDouble st topic message).state = st ∧
    (Main_MqttCallback cfg toDouble st topic message).tft = panelRedraw st := by
  constructor
  · simp [Main_MqttCallback, hp, hb, hn, hs]
  · simp [Main_MqttCallback, hp, hb, hn, hs, panelRedraw, panelBlock]

/-- C2 at the sample configuration: a message on "printer/fan" changes nothing and redraws. -/
theorem C2_unrecognized_topic_redraws_prior_witness :
    (Main_MqttCallback sampleConfig sampleToDouble sampleState "printer/fan"
        ['9', '9']).state = sampleState ∧
    (Main_MqttCallback sampleConfig sampleToDouble sampleState "printer/fan"
        ['9', '9']).tft = panelRedraw sampleState :=
  C2_unrecognized_topic_redraws_prior sampleConfig sampleToDouble sampleState "printer/fan"
    ['9', '9'] (by decide) (by decide) (by decide) (by decide)

/-- C10. For every message (any topic, any payload) Main_MqttCallback issues, after the
dispatch, exactly one clear of the telemetry rectangle (x=401, y=0, width 80, height 320,
black) before any text, then the five blocks Nozzle, Bed, Chamber, Progress, State in this
order, each a caption at text size 1 followed by a value at text size 2, showing the
post-dispatch toolTemp with "C", bedTemp with "C", the constant "00.0C", progress with "%"
and the state text. -/
theorem C10_redraw_after_dispatch {D : Type} (cfg : Config) (toDouble : String → D)
    (st : Telemetry D) (topic : String) (message : List Char) :
    (Main_MqttCallback cfg toDouble st topic message).tft =
      panelRedraw (Main_MqttCallback cfg toDouble st topic message).state ∧
    (Main_MqttCallback cfg toDouble st topic message).tft.head? =
      some (TftCall.fillRect 401 0 80 320 Color.TFT_BLACK) ∧
    (Main_MqttCallback cfg toDouble st topic message).tft.countP isFillRect = 1 := by
  refine ⟨?_, ?_, ?_⟩
  · simp [Main_MqttCallback, panelRedraw, panelBlock]
  · simp [Main_MqttCallback]
  · simp [Main_MqttCallback, isFillRect]

/-! ## Theorems: camera fetch -/

/-- The number of bytes asked of `readBytes` is the lesser of the bytes available and the
buffer size. -/
theorem request_eq_min (a : Nat) :
    (if a > bufferSize then bufferSize else a) = min a bufferSize := by
  split <;> omega

/-- One iteration of the read loop. -/
theorem readLoop_cons (len : Nat) (p : Poll) (rest : List Poll) (remaining : Int)
    (cursor : Nat) :
    readLoop len (p :: rest) remaining cursor =
      if p.connected = true ∧ (remaining > 0 ∨ len = 4294967295) then
        if p.pending.length = 0 then readLoop len rest remaining cursor
        else
          (readLoop len rest
            (if remaining > 0 then remaining - (min p.pending.length bufferSize : Nat)
             else remaining)
            (cursor + min p.pending.length bufferSize)).map
            (fun evs =>
              Effect.readBytes cursor (p.pending.take (min p.pending.length bufferSize)) :: evs)
      else some [] := by
  rw [readLoop]
  simp only [request_eq_min, Bool.and_eq_true, Bool.or_eq_true, decide_eq_true_eq, ne_eq,
    ite_not]

/-- The read loop records nothing but `readBytes` calls. -/
theorem readLoop_only_reads (len : Nat) (polls : List Poll) :
    ∀ (remaining : Int) (cursor : Nat) (reads : List Effect),
      readLoop len polls remaining cursor = some reads →
      ∀ e ∈ reads, isReadBytes e = true := by
  induction polls with
  | nil => intro remaining cursor reads h; simp [readLoop] at h
  | cons p rest ih =>
    intro remaining cursor reads h
    rw [readLoop_cons] at h
    by_cases hc : p.connected = true ∧ (remaining > 0 ∨ len = 4294967295)
    · rw [if_pos hc] at h
      by_cases ha : p.pending.length = 0
      · rw [if_pos ha] at h
        exact ih _ _ _ h
      · rw [if_neg ha] at h
        simp only [Option.map_eq_some'] at h
        obtain ⟨evs, hevs, rfl⟩ := h
        intro e he
        rcases List.mem_cons.mp he with rfl | he
        · rfl
        · exact ih _ _ _ hevs e he
    · rw [if_neg hc] at h
      injection h with h
      subst h
      intro e he
      simp at he

/-- Decoding records nothing but `pushImage` calls. -/
theorem decodeBlocks_only_pushes (height : Int) (tiles : List Tile) :
    ∀ e ∈ decodeBlocks height tiles, isPushImage e = true := by
  induction tiles with
  | nil => intro e he; simp [decodeBlocks] at he
  | cons t rest ih =>
    intro e he
    by_cases hy : t.y ≥ height
    · simp [decodeBlocks, Main_DisplayOutput, hy] at he
    · simp only [decodeBlocks, Main_DisplayOutput, hy, if_false, if_true,
        List.singleton_append, List.mem_cons] at he
      rcases he with rfl | he
      · rfl
      · exact ih e he

/-- No event of a kind `q` occurs in a list whose events are all of a kind `p` disjoint
from `q`. -/
theorem countP_eq_zero_of_kind (p q : Effect → Bool) (l : List Effect)
    (hl : ∀ e ∈ l, p e = true) (hpq : ∀ e, p e = true → q e = false) :
    l.countP q = 0 := by
  rw [List.countP_eq_zero]
  intro e he
  simp [hpq e (hl e he)]

/-- A `readBytes` call is not a `getJpgSize` call. -/
theorem readBytes_not_getJpgSize : ∀ e, isReadBytes e = true → isGetJpgSize e = false := by
  intro e; cases e <;> simp [isReadBytes, isGetJpgSize]

/-- A `readBytes` call is not a `drawJpg` call. -/
theorem readBytes_not_drawJpg : ∀ e, isReadBytes e = true → isDrawJpg e = false := by
  intro e; cases e <;> simp [isReadBytes, isDrawJpg]

/-- A `readBytes` call is not a `pushImage` call. -/
theorem readBytes_not_pushImage : ∀ e, isReadBytes e = true → isPushImage e = false := by
  intro e; cases e <;> simp [isReadBytes, isPushImage]

/-- A `pushImage` call is not a `getJpgSize` call. -/
theorem pushImage_not_getJpgSize : ∀ e, isPushImage e = true → isGetJpgSize e = false := by
  intro e; cases e <;> simp [isPushImage, isGetJpgSize]

/-- A `pushImage` call is not a `drawJpg` call. -/
theorem pushImage_not_drawJpg : ∀ e, isPushImage e = true → isDrawJpg e = false := by
  intro e; cases e <;> simp [isPushImage, isDrawJpg]

/-- Shape of a cycle that reaches the decoder: status OK, a non-zero length and a read loop
that ended with the stores `reads`. -/
theorem getCamPicture_of_reads (env : CamEnv) (reads : List Effect)
    (hcode : env.httpCode = HTTP_CODE_OK) (hlen : 0 < toUInt32 env.size)
    (hloop : readLoop (toUInt32 env.size) env.polls (toInt32 (toUInt32 env.size)) 0
      = some reads) :
    Main_GetCamPicture env =
      some ([Effect.httpBegin, Effect.httpGET] ++ reads ++
        [Effect.logReadOk, Effect.getJpgSize (toUInt32 env.size)] ++
        (if env.jpgWidth > 400 then [Effect.logTooLarge]
         else [Effect.drawJpg 0 0 (toUInt32 env.size)] ++
           decodeBlocks env.height env.tiles ++ [Effect.httpEnd])) := by
  have h0 : ¬ toUInt32 env.size ≤ 0 := by omega
  unfold Main_GetCamPicture
  simp only [hcode, ne_eq, not_true_eq_false, if_false, h0, hloop]
  split <;> simp

/-- A cycle that returns a trace after status OK and a non-zero length went through the read
loop. -/
theorem getCamPicture_reads_exist (env : CamEnv) (tr : List Effect)
    (hcode : env.httpCode = HTTP_CODE_OK) (hlen : 0 < toUInt32 env.size)
    (h : Main_GetCamPicture env = some tr) :
    ∃ reads, readLoop (toUInt32 env.size) env.polls (toInt32 (toUInt32 env.size)) 0
      = some reads := by
  cases hloop : readLoop (toUInt32 env.size) env.polls (toInt32 (toUInt32 env.size)) 0 with
  | some reads => exact ⟨reads, rfl⟩
  | none =>
    have h0 : ¬ toUInt32 env.size ≤ 0 := by omega
    unfold Main_GetCamPicture at h
    simp [hcode, h0, hloop] at h

/-- Counts of decoder calls in the trace of a cycle that reached the decoder. -/
theorem getCamPicture_counts (env : CamEnv) (tr reads : List Effect)
    (hcode : env.httpCode = HTTP_CODE_OK) (hlen : 0 < toUInt32 env.size)
    (hloop : readLoop (toUInt32 env.size) env.polls (toInt32 (toUInt32 env.size)) 0
      = some reads)
    (h : Main_GetCamPicture env = some tr) :
    countGetJpgSize tr = 1 ∧
    tr.count (Effect.getJpgSize (toUInt32 env.size)) = 1 ∧
    (env.jpgWidth > 400 → countDrawJpg tr = 0 ∧ countPushImage tr = 0) ∧
    (env.jpgWidth ≤ 400 → countDrawJpg tr = 1 ∧
      tr.count (Effect.drawJpg 0 0 (toUInt32 env.size)) = 1) := by
  rw [getCamPicture_of_reads env reads hcode hlen hloop] at h
  injection h with h
  subst h
  have hr := readLoop_only_reads _ _ _ _ _ hloop
  have hd := decodeBlocks_only_pushes env.height env.tiles
  have r1 := countP_eq_zero_of_kind _ _ reads hr readBytes_not_getJpgSize
  have r2 := countP_eq_zero_of_kind _ _ reads hr readBytes_not_drawJpg
  have r3 := countP_eq_zero_of_kind _ _ reads hr readBytes_not_pushImage
  have d1 := countP_eq_zero_of_kind _ _ _ hd pushImage_not_getJpgSize
  have d2 := countP_eq_zero_of_kind _ _ _ hd pushImage_not_drawJpg
  have r4 : reads.count (Effect.getJpgSize (toUInt32 env.size)) = 0 := by
    rw [List.count_eq_zero]
    intro hm
    have := hr _ hm
    simp [isReadBytes] at this
  have r5 : reads.count (Effect.drawJpg 0 0 (toUInt32 env.size)) = 0 := by
    rw [List.count_eq_zero]
    intro hm
    have := hr _ hm
    simp [isReadBytes] at this
  have d4 : (decodeBlocks env.height env.tiles).count
      (Effect.getJpgSize (toUInt32 env.size)) = 0 := by
    rw [List.count_eq_zero]
    intro hm
    have := hd _ hm
    simp [isPushImage] at this
  have d5 : (decodeBlocks env.height env.tiles).count
      (Effect.drawJpg 0 0 (toUInt32 env.size)) = 0 := by
    rw [List.count_eq_zero]
    intro hm
    have := hd _ hm
    simp [isPushImage] at this
  by_cases hw : env.jpgWidth > 400
  · have hw2 : ¬ env.jpgWidth ≤ 400 := by omega
    simp [hw, hw2, countGetJpgSize, countDrawJpg, countPushImage, List.countP_append,
      List.countP_cons, List.count_append, List.count_cons, isGetJpgSize, isDrawJpg,
      isPushImage, r1, r2, r3, r4, r5]
  · have hw2 : env.jpgWidth ≤ 400 := by omega
    simp [hw, hw2, countGetJpgSize, countDrawJpg, countPushImage, List.countP_append,
      List.countP_cons, List.count_append, List.count_cons, isGetJpgSize, isDrawJpg,
      isPushImage, r1, r2, r4, r5, d1, d2, d4, d5]

/-! ### The read loop on a run of polls with the connection open -/

/-- A run of polls that brings no byte leads to no store. -/
theorem storesFrom_of_delivered_zero (pre : List Poll) :
    ∀ cursor, delivered pre = 0 → storesFrom cursor pre = [] := by
  induction pre with
  | nil => intro cursor _; rfl
  | cons q rest ih =>
    intro cursor h
    simp only [delivered, bufferSize] at h
    have hq : q.pending.length = 0 := by omega
    have hr : delivered rest = 0 := by omega
    simp [storesFrom, hq, ih cursor hr]

/-- On polls `pre` with the connection open, followed by a poll `p`, the loop serves every
poll of `pre` and ends there, provided the bytes of `pre` do not exceed the remaining length
and either `p` finds the connection closed or `pre` brings the remaining length to zero. -/
theorem readLoop_served (len : Nat) (p : Poll) (rest : List Poll) (pre : List Poll) :
    ∀ (remaining : Int) (cursor : Nat),
      (∀ q ∈ pre, q.connected = true) →
      (delivered pre : Int) ≤ remaining →
      (p.connected = false ∨ ((delivered pre : Int) = remaining ∧ len ≠ 4294967295)) →
      readLoop len (pre ++ p :: rest) remaining cursor = some (storesFrom cursor pre) := by
  induction pre with
  | nil =>
    intro remaining cursor _ _ hexit
    simp only [delivered, Nat.cast_zero] at hexit
    rw [List.nil_append, readLoop_cons]
    have hc : ¬ (p.connected = true ∧ (remaining > 0 ∨ len = 4294967295)) := by
      rintro ⟨h1, h2⟩
      rcases hexit with h | ⟨h, h3⟩
      · simp [h] at h1
      · rcases h2 with h2 | h2
        · omega
        · exact h3 h2
    rw [if_neg hc]
    rfl
  | cons q pre ih =>
    intro remaining cursor hconn hle hexit
    have hq : q.connected = true := hconn q (List.mem_cons_self _ _)
    have hconn2 : ∀ r ∈ pre, r.connected = true :=
      fun r hr => hconn r (List.mem_cons_of_mem _ hr)
    simp only [delivered, Nat.cast_add] at hle hexit
    rw [List.cons_append, readLoop_cons]
    by_cases hc : q.connected = true ∧ (remaining > 0 ∨ len = 4294967295)
    · rw [if_pos hc]
      by_cases ha : q.pending.length = 0
      · rw [if_pos ha]
        simp only [ha, Nat.zero_min, Nat.cast_zero, zero_add] at hle hexit
        rw [ih remaining cursor hconn2 hle hexit]
        simp [storesFrom, ha]
      · rw [if_neg ha]
        have hmin : 1 ≤ min q.pending.length bufferSize := by
          simp only [bufferSize]; omega
        have hpos : remaining > 0 := by omega
        rw [if_pos hpos]
        rw [ih (remaining - (min q.pending.length bufferSize : Nat))
          (cursor + min q.pending.length bufferSize) hconn2 (by omega)
          (by rcases hexit with h | ⟨h, h3⟩
              · exact Or.inl h
              · exact Or.inr ⟨by omega, h3⟩)]
        simp [storesFrom, ha]
    · rw [if_neg hc]
      have hrem : ¬ remaining > 0 := fun h => hc ⟨hq, Or.inl h⟩
      have hz : delivered (q :: pre) = 0 := by
        simp only [delivered]; omega
      rw [storesFrom_of_delivered_zero (q :: pre) cursor hz]

/-- The stores of a run of polls hold as many bytes as the loop takes from it. -/
theorem bytesWritten_storesFrom (pre : List Poll) :
    ∀ cursor, bytesWritten (storesFrom cursor pre) = delivered pre := by
  induction pre with
  | nil => intro cursor; rfl
  | cons q rest ih =>
    intro cursor
    by_cases ha : q.pending.length = 0
    · have := ih cursor
      simp only [storesFrom, ha, if_true, delivered, Nat.zero_min, zero_add]
      exact this
    · have := ih (cursor + min q.pending.length bufferSize)
      simp only [bytesWritten, writes] at this
      simp only [storesFrom, ha, if_false, delivered, bytesWritten, writes,
        List.filterMap_cons, asWrite, List.map_cons, List.sum_cons, List.length_take, this]
      omega

/-- The stores of a run of polls that brings bytes end where the cursor ends. -/
theorem writeEnd_storesFrom (pre : List Poll) :
    ∀ cursor, 0 < delivered pre →
      writeEnd (storesFrom cursor pre) = cursor + delivered pre := by
  induction pre with
  | nil => intro cursor h; simp [delivered] at h
  | cons q rest ih =>
    intro cursor h
    by_cases ha : q.pending.length = 0
    · simp only [delivered, ha, Nat.zero_min, zero_add] at h
      have := ih cursor h
      simp only [storesFrom, ha, if_true, delivered, Nat.zero_min, zero_add]
      exact this
    · simp only [storesFrom, ha, if_false, delivered, writeEnd, writes,
        List.filterMap_cons, asWrite, List.map_cons, List.foldr_cons, List.length_take]
      by_cases hr : delivered rest = 0
      · rw [storesFrom_of_delivered_zero rest _ hr]
        simp only [List.filterMap_nil, List.map_nil, List.foldr_nil, hr]
        omega
      · have := ih (cursor + min q.pending.length bufferSize) (by omega)
        simp only [writeEnd, writes] at this
        rw [this]
        omega

/-- The loop takes at most the bytes that arrived. -/
theorem delivered_le_arrived (pre : List Poll) : delivered pre ≤ (arrived pre).length := by
  induction pre with
  | nil => simp [delivered, arrived]
  | cons q rest ih =>
    simp only [delivered, arrived, List.length_append]
    omega

/-- The loop takes all the bytes that arrived when they fit the buffer size. -/
theorem delivered_eq_arrived (pre : List Poll) (h : (arrived pre).length ≤ bufferSize) :
    delivered pre = (arrived pre).length := by
  induction pre with
  | nil => simp [delivered, arrived]
  | cons q rest ih =>
    simp only [arrived, List.length_append] at h
    simp only [delivered, arrived, List.length_append]
    have := ih (by omega)
    omega

/-- When no poll holds more than the buffer size, the stores lay the arrived bytes out
contiguously from the cursor on, in arrival order, and leave the rest of memory alone. -/
theorem bufferAfter_storesFrom (pre : List Poll) :
    ∀ (mem : List Nat) (cursor : Nat), cursor ≤ mem.length →
      (arrived pre).length ≤ bufferSize →
      bufferAfter mem (storesFrom cursor pre) =
        mem.take cursor ++ arrived pre ++ mem.drop (cursor + (arrived pre).length) := by
  induction pre with
  | nil =>
    intro mem cursor _ _
    simp [bufferAfter, writes, storesFrom, arrived]
  | cons q rest ih =>
    intro mem cursor hcur hsmall
    simp only [arrived, List.length_append] at hsmall
    by_cases ha : q.pending.length = 0
    · have hnil : q.pending = [] := List.length_eq_zero.mp ha
      have := ih mem cursor hcur (by omega)
      simp only [storesFrom, ha, if_true, arrived, hnil, List.nil_append]
      exact this
    · have hmin : min q.pending.length bufferSize = q.pending.length := by omega
      have hlen1 : (mem.take cursor ++ q.pending).length = cursor + q.pending.length := by
        simp [List.length_take, Nat.min_eq_left hcur]
      have hstep := ih (storeAt mem cursor q.pending) (cursor + q.pending.length)
        (by simp only [storeAt, List.length_append, List.length_take, List.length_drop]
            omega)
        (by omega)
      simp only [bufferAfter] at hstep
      simp only [storesFrom, ha, if_false, hmin, List.take_length, bufferAfter, writes,
        List.filterMap_cons, asWrite, List.foldl_cons, arrived, List.length_append]
      simp only [writes] at hstep
      rw [hstep]
      have e1 : (storeAt mem cursor q.pending).take (cursor + q.pending.length)
          = mem.take cursor ++ q.pending := by
        unfold storeAt
        exact List.take_left' hlen1
      have e2 : (storeAt mem cursor q.pending).drop
          (cursor + q.pending.length + (arrived rest).length)
          = mem.drop (cursor + (q.pending.length + (arrived rest).length)) := by
        unfold storeAt
        rw [show cursor + q.pending.length + (arrived rest).length
            = (mem.take cursor ++ q.pending).length + (arrived rest).length by rw [hlen1]]
        rw [List.drop_append, List.drop_drop]
        congr 1
        omega
      rw [e1, e2]
      simp [List.append_assoc]

/-- Decoding stores nothing in the streaming buffer. -/
theorem writes_decodeBlocks (height : Int) (tiles : List Tile) :
    writes (decodeBlocks height tiles) = [] := by
  unfold writes
  rw [List.filterMap_eq_nil_iff]
  intro e he
  have := decodeBlocks_only_pushes height tiles e he
  cases e <;> simp [isPushImage] at this
  rfl

/-- The stores of a cycle that reached the decoder are those of its read loop. -/
theorem getCamPicture_writes (env : CamEnv) (tr reads : List Effect)
    (hcode : env.httpCode = HTTP_CODE_OK) (hlen : 0 < toUInt32 env.size)
    (hloop : readLoop (toUInt32 env.size) env.polls (toInt32 (toUInt32 env.size)) 0
      = some reads)
    (h : Main_GetCamPicture env = some tr) :
    writes tr = writes reads := by
  rw [getCamPicture_of_reads env reads hcode hlen hloop] at h
  injection h with h
  subst h
  have hd := writes_decodeBlocks env.height env.tiles
  unfold writes at hd ⊢
  split <;> simp [List.filterMap_append, asWrite, hd]

/-- A length below 2^32 is kept by the conversion to `uint32_t`. -/
theorem toUInt32_natCast (L : Nat) (h : L < 4294967296) : toUInt32 (L : Int) = L := by
  unfold toUInt32
  omega

/-- A length below 2^31 is kept by the conversion to `int`. -/
theorem toInt32_small (L : Nat) (h : L < 2147483648) : toInt32 L = (L : Int) := by
  unfold toInt32
  simp [h]

/-- A fetch with status OK and declared length `L` whose polls are `pre`, with the connection
open, followed by `p`: the cycle returns a trace whose stores are those of `pre`, provided
`pre` brings at most `L` bytes and either `p` finds the connection closed or `pre` brings
exactly `L` bytes. -/
theorem getCamPicture_served (L : Nat) (pre : List Poll) (p : Poll) (rest : List Poll)
    (w : Nat) (tiles : List Tile) (height : Int)
    (hL1 : 0 < L) (hL2 : L < 2147483648)
    (hconn : ∀ q ∈ pre, q.connected = true)
    (hle : delivered pre ≤ L)
    (hexit : p.connected = false ∨ delivered pre = L) :
    readLoop (toUInt32 (L : Int)) (pre ++ p :: rest) (toInt32 (toUInt32 (L : Int))) 0
        = some (storesFrom 0 pre) ∧
    ∃ tr, Main_GetCamPicture ⟨200, (L : Int), pre ++ p :: rest, w, tiles, height⟩ = some tr ∧
      writes tr = writes (storesFrom 0 pre) := by
  have hu : toUInt32 (L : Int) = L := toUInt32_natCast L (by omega)
  have hi : toInt32 L = (L : Int) := toInt32_small L hL2
  have hloop : readLoop (toUInt32 (L : Int)) (pre ++ p :: rest)
      (toInt32 (toUInt32 (L : Int))) 0 = some (storesFrom 0 pre) := by
    rw [hu, hi]
    apply readLoop_served L p rest pre (L : Int) 0 hconn (by omega)
    rcases hexit with h | h
    · exact Or.inl h
    · exact Or.inr ⟨by omega, by omega⟩
  refine ⟨hloop, ?_⟩
  have hshape := getCamPicture_of_reads ⟨200, (L : Int), pre ++ p :: rest, w, tiles, height⟩
    (storesFrom 0 pre) rfl (by show 0 < toUInt32 (L : Int); omega) hloop
  exact ⟨_, hshape, getCamPicture_writes _ _ _ rfl (by show 0 < toUInt32 (L : Int); omega)
    hloop hshape⟩

/-- C3 (as the code behaves). A fetch with status OK and declared length L > 0 whose
connection closes after fewer than L bytes: the read loop ends at the close with fewer than
L bytes stored, and the decode step is still attempted: getJpgSize is called exactly once,
with the declared length L, and drawJpg is called exactly once (at (0,0), length L) when the
reported width is at most 400 and not at all when it is larger. -/
theorem C3_short_fetch_still_decodes (L : Nat) (pre : List Poll) (p : Poll)
    (rest : List Poll) (w : Nat) (tiles : List Tile) (height : Int)
    (hL1 : 0 < L) (hL2 : L < 2147483648)
    (hconn : ∀ q ∈ pre, q.connected = true)
    (hclose : p.connected = false)
    (hshort : (arrived pre).length < L) :
    ∃ tr, Main_GetCamPicture ⟨200, (L : Int), pre ++ p :: rest, w, tiles, height⟩ = some tr ∧
      bytesWritten tr < L ∧
      countGetJpgSize tr = 1 ∧ tr.count (Effect.getJpgSize L) = 1 ∧
      (w ≤ 400 → countDrawJpg tr = 1 ∧ tr.count (Effect.drawJpg 0 0 L) = 1) ∧
      (w > 400 → countDrawJpg tr = 0) := by
  have hd := delivered_le_arrived pre
  obtain ⟨hloop, tr, htr, hwr⟩ := getCamPicture_served L pre p rest w tiles height hL1 hL2
    hconn (by omega) (Or.inl hclose)
  have hu : toUInt32 (L : Int) = L := toUInt32_natCast L (by omega)
  have hc := getCamPicture_counts ⟨200, (L : Int), pre ++ p :: rest, w, tiles, height⟩ tr
    (storesFrom 0 pre) rfl (by show 0 < toUInt32 (L : Int); omega) hloop htr
  simp only [hu] at hc
  refine ⟨tr, htr, ?_, hc.1, hc.2.1, hc.2.2.2, fun h => (hc.2.2.1 h).1⟩
  have hb := bytesWritten_storesFrom pre 0
  unfold bytesWritten at hb ⊢
  rw [hwr, hb]
  omega

/-- C3 at a concrete fetch: 10 bytes declared, 5 delivered before the close, width 0. -/
theorem C3_short_fetch_still_decodes_witness :
    ∃ tr, Main_GetCamPicture
        ⟨200, ((10 : Nat) : Int), [⟨true, [255, 216, 255, 224, 0]⟩] ++ ⟨false, []⟩ :: [],
          0, [], 320⟩ = some tr ∧
      bytesWritten tr < 10 ∧
      countGetJpgSize tr = 1 ∧ tr.count (Effect.getJpgSize 10) = 1 ∧
      (0 ≤ 400 → countDrawJpg tr = 1 ∧ tr.count (Effect.drawJpg 0 0 10) = 1) ∧
      (0 > 400 → countDrawJpg tr = 0) :=
  C3_short_fetch_still_decodes 10 [⟨true, [255, 216, 255, 224, 0]⟩] ⟨false, []⟩ [] 0 [] 320
    (by decide) (by decide) (by simp) rfl (by decide)

/-- C3 fails as stated: with 10 bytes declared, 5 delivered and the connection then closed,
the cycle goes on to call getJpgSize and drawJpg with length 10. -/
theorem C3_counterexample :
    Main_GetCamPicture shortFetch =
      some [Effect.httpBegin, Effect.httpGET, Effect.readBytes 0 [255, 216, 255, 224, 0],
        Effect.logReadOk, Effect.getJpgSize 10, Effect.drawJpg 0 0 10, Effect.httpEnd] ∧
    (Main_GetCamPicture shortFetch).map countGetJpgSize = some 1 ∧
    (Main_GetCamPicture shortFetch).map countDrawJpg = some 1 := by
  decide

/-- C5 (as the code behaves). For every response with status OK whose declared content
length is 0, Main_GetCamPicture abandons the cycle immediately: it stores nothing in the
streaming buffer and calls neither getJpgSize nor drawJpg. -/
theorem C5_zero_length_abandons (env : CamEnv)
    (hcode : env.httpCode = HTTP_CODE_OK) (hsize : env.size = 0) :
    Main_GetCamPicture env =
      some [Effect.httpBegin, Effect.httpGET, Effect.logNoContent 0] ∧
    (Main_GetCamPicture env).map bytesWritten = some 0 ∧
    (Main_GetCamPicture env).map countGetJpgSize = some 0 ∧
    (Main_GetCamPicture env).map countDrawJpg = some 0 := by
  have h : Main_GetCamPicture env =
      some [Effect.httpBegin, Effect.httpGET, Effect.logNoContent 0] := by
    unfold Main_GetCamPicture
    simp [hcode, hsize, toUInt32]
  rw [h]
  refine ⟨rfl, ?_, ?_, ?_⟩ <;> rfl

/-- C5 at a concrete response with Content-Length 0. -/
theorem C5_zero_length_abandons_witness :
    Main_GetCamPicture emptyFetch =
      some [Effect.httpBegin, Effect.httpGET, Effect.logNoContent 0] ∧
    (Main_GetCamPicture emptyFetch).map bytesWritten = some 0 ∧
    (Main_GetCamPicture emptyFetch).map countGetJpgSize = some 0 ∧
    (Main_GetCamPicture emptyFetch).map countDrawJpg = some 0 :=
  C5_zero_length_abandons emptyFetch rfl rfl

/-- C5 fails as stated at the declared length -1: the cycle is not abandoned, two bytes are
stored and getJpgSize and drawJpg are called with length 4294967295. -/
theorem C5_counterexample :
    unknownLengthFetch.size = -1 ∧
    Main_GetCamPicture unknownLengthFetch =
      some [Effect.httpBegin, Effect.httpGET, Effect.readBytes 0 [255, 216],
        Effect.logReadOk, Effect.getJpgSize 4294967295, Effect.drawJpg 0 0 4294967295,
        Effect.httpEnd] ∧
    (Main_GetCamPicture unknownLengthFetch).map bytesWritten = some 2 ∧
    (Main_GetCamPicture unknownLengthFetch).map countGetJpgSize = some 1 ∧
    (Main_GetCamPicture unknownLengthFetch).map countDrawJpg = some 1 := by
  decide

/-- The piece holds 4000 bytes. -/
theorem piece_length : piece.length = 4000 := List.length_replicate 4000 0

/-- Reading 4000 bytes of the piece reads it whole. -/
theorem take_piece : piece.take 4000 = piece :=
  List.take_of_length_le (by rw [piece_length])

/-- C4 at a failing input. A 24000-byte picture (status OK, Content-Length 24000) arriving
in six pieces of 4000 bytes: every piece is below the per-call limit of 20000, the cursor
keeps advancing, and the sixth readBytes stores 4000 bytes at offset 20000, past the end of
the 20000-byte buffer; 24000 bytes are stored in all. -/
theorem C4_overflow_on_large_picture :
    bufferSize = 20000 ∧
    Main_GetCamPicture largeFetch =
      some [Effect.httpBegin, Effect.httpGET,
        Effect.readBytes 0 piece,
        Effect.readBytes 4000 piece,
        Effect.readBytes 8000 piece,
        Effect.readBytes 12000 piece,
        Effect.readBytes 16000 piece,
        Effect.readBytes 20000 piece,
        Effect.logReadOk, Effect.getJpgSize 24000, Effect.drawJpg 0 0 24000,
        Effect.httpEnd] ∧
    (Main_GetCamPicture largeFetch).map bytesWritten = some 24000 ∧
    (Main_GetCamPicture largeFetch).map writeEnd = some 24000 := by
  have hdel : delivered
      [⟨true, piece⟩, ⟨true, piece⟩,
       ⟨true, piece⟩, ⟨true, piece⟩,
       ⟨true, piece⟩, ⟨true, piece⟩] = 24000 := by
    simp [delivered, bufferSize, piece_length]
  have hloop := readLoop_served 24000 ⟨false, []⟩ []
    [⟨true, piece⟩, ⟨true, piece⟩,
     ⟨true, piece⟩, ⟨true, piece⟩,
     ⟨true, piece⟩, ⟨true, piece⟩] 24000 0
    (by simp) (by rw [hdel]; decide) (Or.inl rfl)
  have hshape := getCamPicture_of_reads largeFetch _ rfl (by decide) hloop
  have htr : Main_GetCamPicture largeFetch =
      some [Effect.httpBegin, Effect.httpGET,
        Effect.readBytes 0 piece,
        Effect.readBytes 4000 piece,
        Effect.readBytes 8000 piece,
        Effect.readBytes 12000 piece,
        Effect.readBytes 16000 piece,
        Effect.readBytes 20000 piece,
        Effect.logReadOk, Effect.getJpgSize 24000, Effect.drawJpg 0 0 24000,
        Effect.httpEnd] := by
    rw [hshape]
    simp [storesFrom, bufferSize, largeFetch, decodeBlocks, toUInt32, piece_length,
      take_piece]
  refine ⟨rfl, htr, ?_, ?_⟩
  · rw [htr]
    simp [bytesWritten, writes, asWrite, piece_length]
  · rw [htr]
    simp [writeEnd, writes, asWrite, piece_length]

/-- C6. For every declared length L with 1 <= L <= 20000 and every way the connection
delivers exactly L bytes in chunks while it stays open (status OK), the cycle returns, the
read loop stores exactly L bytes, at offsets 0..L-1 of the buffer and in arrival order (the
rest of the buffer is untouched), and the length handed to getJpgSize and to drawJpg is
exactly L. -/
theorem C6_exact_fetch_length (L : Nat) (pre : List Poll) (p : Poll) (rest : List Poll)
    (w : Nat) (tiles : List Tile) (height : Int) (mem : List Nat)
    (hL1 : 1 ≤ L) (hL2 : L ≤ 20000)
    (hconn : ∀ q ∈ pre, q.connected = true)
    (hsum : (arrived pre).length = L)
    (hmem : mem.length = bufferSize) :
    ∃ tr, Main_GetCamPicture ⟨200, (L : Int), pre ++ p :: rest, w, tiles, height⟩ = some tr ∧
      bytesWritten tr = L ∧ writeEnd tr = L ∧
      bufferAfter mem tr = arrived pre ++ mem.drop L ∧
      (bufferAfter mem tr).length = bufferSize ∧
      countGetJpgSize tr = 1 ∧ tr.count (Effect.getJpgSize L) = 1 ∧
      (w ≤ 400 → countDrawJpg tr = 1 ∧ tr.count (Effect.drawJpg 0 0 L) = 1) ∧
      (w > 400 → countDrawJpg tr = 0) := by
  have hsmall : (arrived pre).length ≤ bufferSize := by simp only [bufferSize]; omega
  have hd : delivered pre = L := by rw [delivered_eq_arrived pre hsmall, hsum]
  obtain ⟨hloop, tr, htr, hwr⟩ := getCamPicture_served L pre p rest w tiles height
    (by omega) (by omega) hconn (by omega) (Or.inr hd)
  have hu : toUInt32 (L : Int) = L := toUInt32_natCast L (by omega)
  have hc := getCamPicture_counts ⟨200, (L : Int), pre ++ p :: rest, w, tiles, height⟩ tr
    (storesFrom 0 pre) rfl (by show 0 < toUInt32 (L : Int); omega) hloop htr
  simp only [hu] at hc
  have hb := bytesWritten_storesFrom pre 0
  have he := writeEnd_storesFrom pre 0 (by omega)
  have hbuf := bufferAfter_storesFrom pre mem 0 (by omega) hsmall
  simp only [List.take_zero, List.nil_append, zero_add, hsum] at hbuf
  have hbuf2 : bufferAfter mem tr = arrived pre ++ mem.drop L := by
    unfold bufferAfter at hbuf ⊢
    rw [hwr, hbuf]
  refine ⟨tr, htr, ?_, ?_, hbuf2, ?_, hc.1, hc.2.1, hc.2.2.2, fun h => (hc.2.2.1 h).1⟩
  · unfold bytesWritten at hb ⊢
    rw [hwr, hb, hd]
  · unfold writeEnd at he ⊢
    rw [hwr, he, hd]
    omega
  · rw [hbuf2, List.length_append, List.length_drop, hsum, hmem]
    simp only [bufferSize]
    omega

/-- C6 at a concrete fetch: 6 bytes declared, delivered as 2 bytes, an empty poll and 4
bytes, into a buffer of zeros. -/
theorem C6_exact_fetch_length_witness :
    ∃ tr, Main_GetCamPicture
        ⟨200, ((6 : Nat) : Int),
          [⟨true, [255, 216]⟩, ⟨true, []⟩, ⟨true, [1, 2, 255, 217]⟩] ++ ⟨false, []⟩ :: [],
          320, [], 320⟩ = some tr ∧
      bytesWritten tr = 6 ∧ writeEnd tr = 6 ∧
      bufferAfter (List.replicate 20000 0) tr =
        arrived [⟨true, [255, 216]⟩, ⟨true, []⟩, ⟨true, [1, 2, 255, 217]⟩] ++
          (List.replicate 20000 0).drop 6 ∧
      (bufferAfter (List.replicate 20000 0) tr).length = bufferSize ∧
      countGetJpgSize tr = 1 ∧ tr.count (Effect.getJpgSize 6) = 1 ∧
      (320 ≤ 400 → countDrawJpg tr = 1 ∧ tr.count (Effect.drawJpg 0 0 6) = 1) ∧
      (320 > 400 → countDrawJpg tr = 0) :=
  C6_exact_fetch_length 6 [⟨true, [255, 216]⟩, ⟨true, []⟩, ⟨true, [1, 2, 255, 217]⟩]
    ⟨false, []⟩ [] 320 [] 320 (List.replicate 20000 0) (by decide) (by decide) (by simp)
    (by decide) (List.length_replicate 20000 0)

/-- C7. Size policy of Main_GetCamPicture: in a cycle whose fetch completed (status OK,
non-zero length, read loop ended), with w the width reported by getJpgSize, drawJpg is
called, once, at origin (0,0) with the fetch length, if and only if w <= 400; for every
w > 400 drawJpg is not called and no block is pushed by the render callback. -/
theorem C7_size_policy (env : CamEnv) (tr : List Effect)
    (hcode : env.httpCode = HTTP_CODE_OK) (hlen : 0 < toUInt32 env.size)
    (h : Main_GetCamPicture env = some tr) :
    (0 < countDrawJpg tr ↔ env.jpgWidth ≤ 400) ∧
    (env.jpgWidth ≤ 400 →
      countDrawJpg tr = 1 ∧ tr.count (Effect.drawJpg 0 0 (toUInt32 env.size)) = 1) ∧
    (env.jpgWidth > 400 → countDrawJpg tr = 0 ∧ countPushImage tr = 0) := by
  obtain ⟨reads, hloop⟩ := getCamPicture_reads_exist env tr hcode hlen h
  have hc := getCamPicture_counts env tr reads hcode hlen hloop h
  refine ⟨?_, hc.2.2.2, hc.2.2.1⟩
  by_cases hw : env.jpgWidth ≤ 400
  · simp [hw, (hc.2.2.2 hw).1]
  · have := (hc.2.2.1 (by omega)).1
    simp [hw, this]

/-- C7 at two concrete cycles: the same 6-byte fetch reported 401 wide is not drawn (no
drawJpg, no pushImage), and reported 400 wide it is drawn once. -/
theorem C7_size_policy_witness :
    ((0 < countDrawJpg
          [Effect.httpBegin, Effect.httpGET, Effect.readBytes 0 [255, 216],
            Effect.readBytes 2 [1, 2, 255, 217], Effect.logReadOk, Effect.getJpgSize 6,
            Effect.logTooLarge] ↔ (smallFetch 401).jpgWidth ≤ 400) ∧
      ((smallFetch 401).jpgWidth ≤ 400 →
        countDrawJpg
            [Effect.httpBegin, Effect.httpGET, Effect.readBytes 0 [255, 216],
              Effect.readBytes 2 [1, 2, 255, 217], Effect.logReadOk, Effect.getJpgSize 6,
              Effect.logTooLarge] = 1 ∧
          List.count (Effect.drawJpg 0 0 (toUInt32 (smallFetch 401).size))
            [Effect.httpBegin, Effect.httpGET, Effect.readBytes 0 [255, 216],
              Effect.readBytes 2 [1, 2, 255, 217], Effect.logReadOk, Effect.getJpgSize 6,
              Effect.logTooLarge] = 1) ∧
      ((smallFetch 401).jpgWidth > 400 →
        countDrawJpg
            [Effect.httpBegin, Effect.httpGET, Effect.readBytes 0 [255, 216],
              Effect.readBytes 2 [1, 2, 255, 217], Effect.logReadOk, Effect.getJpgSize 6,
              Effect.logTooLarge] = 0 ∧
          countPushImage
            [Effect.httpBegin, Effect.httpGET, Effect.readBytes 0 [255, 216],
              Effect.readBytes 2 [1, 2, 255, 217], Effect.logReadOk, Effect.getJpgSize 6,
              Effect.logTooLarge] = 0)) ∧
    (Main_GetCamPicture (smallFetch 400)).map countDrawJpg = some 1 ∧
    (Main_GetCamPicture (smallFetch 400)).map countPushImage = some 2 :=
  ⟨C7_size_policy (smallFetch 401) _ (by decide) (by decide) (by decide),
   by decide, by decide⟩

/-! ## Theorems: the split of the display at column 401 -/

/-- Every display call of the side-panel renderer stays in the telemetry region. -/
theorem mqttCallback_all_inPanel {D : Type} (cfg : Config) (toDouble : String → D)
    (st : Telemetry D) (topic : String) (message : List Char) :
    (Main_MqttCallback cfg toDouble st topic message).tft.all inPanel = true := by
  simp [Main_MqttCallback, inPanel]

/-- A block pushed while decoding is one of the decoder's blocks, unchanged. -/
theorem decodeBlocks_pushImage_tile (height : Int) (tiles : List Tile) :
    ∀ x y w h b, Effect.pushImage x y w h b ∈ decodeBlocks height tiles →
      ∃ t ∈ tiles, t.x = x ∧ t.w = w := by
  induction tiles with
  | nil => intro x y w h b hm; simp [decodeBlocks] at hm
  | cons t rest ih =>
    intro x y w h b hm
    by_cases hy : t.y ≥ height
    · simp [decodeBlocks, Main_DisplayOutput, hy] at hm
    · simp only [decodeBlocks, Main_DisplayOutput, hy, if_false, if_true,
        List.singleton_append, List.mem_cons] at hm
      rcases hm with hm | hm
      · injection hm with h1 _ h3
        exact ⟨t, List.mem_cons_self _ _, h1.symm, h3.symm⟩
      · obtain ⟨t2, ht2, hx⟩ := ih x y w h b hm
        exact ⟨t2, List.mem_cons_of_mem _ ht2, hx⟩

/-- A block pushed in a cycle of `Main_GetCamPicture` was pushed by the draw that follows the
size check: the reported width was at most 400 and the block is one the decoder produced. -/
theorem getCamPicture_pushImage_mem (env : CamEnv) (tr : List Effect)
    (h : Main_GetCamPicture env = some tr) :
    ∀ x y w h b, Effect.pushImage x y w h b ∈ tr →
      env.jpgWidth ≤ 400 ∧ Effect.pushImage x y w h b ∈ decodeBlocks env.height env.tiles := by
  intro x y w hh b hm
  by_cases hcode : env.httpCode = HTTP_CODE_OK
  · by_cases hlen : 0 < toUInt32 env.size
    · obtain ⟨reads, hloop⟩ := getCamPicture_reads_exist env tr hcode hlen h
      rw [getCamPicture_of_reads env reads hcode hlen hloop] at h
      injection h with h
      subst h
      have hr := readLoop_only_reads _ _ _ _ _ hloop
      have hnr : Effect.pushImage x y w hh b ∉ reads := by
        intro hin
        have := hr _ hin
        simp [isReadBytes] at this
      by_cases hw : env.jpgWidth > 400
      · simp [hw, hnr] at hm
      · simp only [hw, if_false, List.mem_append, List.mem_cons, List.mem_singleton,
          List.not_mem_nil, or_false, false_or, hnr] at hm
        simp only [reduceCtorEq, false_or, or_false] at hm
        exact ⟨by omega, hm⟩
    · have h0 : toUInt32 env.size ≤ 0 := by omega
      unfold Main_GetCamPicture at h
      simp only [hcode, ne_eq, not_true_eq_false, if_false, h0, if_true] at h
      injection h with h
      subst h
      simp at hm
  · unfold Main_GetCamPicture at h
    simp only [ne_eq, hcode, not_false_eq_true, if_true] at h
    injection h with h
    subst h
    simp at hm

end PrinterViewer
